import Mathlib

/-!
Shallow embedding of the EduSphere backend (`src/main.py`): the credential
service (password hashing, registration, login, bearer-authenticated `/me`),
the course/product CRUD endpoints and the document serializer, together with
proofs of the behavioural properties claimed for them.

The document store is modelled as explicit state (`DB`): each pymongo
collection call of `main.py` (`find_one`, `insert_one`, `update_one`) becomes
the corresponding operation on a Lean list.  SHA-256 (`hashlib.sha256(...).
hexdigest()`) is an external dependency and is abstracted as a function
parameter `sha256hex : String → String`; nothing proved below depends on which
function is supplied, except where an explicit hypothesis names the needed
property.  Store-generated ObjectIds are supplied explicitly (`newId`) to the
operations that insert documents.
-/

set_option autoImplicit false

namespace EduSphere

/-- A field value inside a stored document.  `vOid` is a BSON ObjectId carried
as its 24-character lowercase hex string; `vNull` is a JSON null (a pydantic
Optional field left unset); `vStrList` is a list of strings (the `tags`
field of a course). -/
inductive Value where
  | vStr (s : String)
  | vOid (hex : String)
  | vInt (n : Int)
  | vNull
  | vStrList (ss : List String)
  deriving Repr, DecidableEq

/-- A stored document: an association list of field names to values, in
insertion order, mirroring a Python dict. -/
abbrev Doc := List (String × Value)

/-- Python `doc.get(k)` / `doc[k]`: the value at the first occurrence of key
`k`, if any. -/
def lookupKey (d : Doc) (k : String) : Option Value :=
  (d.find? (fun p => p.1 == k)).map (fun p => p.2)

/-- Number of entries of `d` carrying key `k` (a Python dict has at most
one; documents built by this system have exactly one `_id`). -/
def countKey (d : Doc) (k : String) : Nat :=
  (d.filter (fun p => p.1 == k)).length

/-- Python `doc.pop(k)`: remove the first entry with key `k`. -/
def eraseKey (d : Doc) (k : String) : Doc :=
  d.eraseP (fun p => p.1 == k)

/-- Python `doc[k] = v`: replace the value at key `k` in place, or append the
pair at the end when the key is absent (dict insertion order). -/
def setKey : Doc → String → Value → Doc
  | [], k, v => [(k, v)]
  | (k₁, v₁) :: d, k, v =>
      if k₁ == k then (k, v) :: d else (k₁, v₁) :: setKey d k v

/-- Python `str(value)`.  In `main.py` this is only ever applied to an
ObjectId (the popped `_id` of a stored document), where it yields the hex
string. -/
def strOfValue : Value → String
  | .vStr s => s
  | .vOid hex => hex
  | .vInt n => toString n
  | .vNull => "None"
  | .vStrList _ => "[]"

/-- `serialize` from `main.py`: a falsy document (empty dict / None, here the
empty list) is returned unchanged; otherwise `_id` is popped and its string
form stored under `id`.  `doc.pop("_id")` raises `KeyError` when `_id` is
absent; that unhandled-exception outcome is `none`. -/
def serialize (doc : Doc) : Option Doc :=
  if doc.isEmpty then some doc
  else
    match lookupKey doc "_id" with
    | none => none
    | some v => some (setKey (eraseKey doc "_id") "id" (.vStr (strOfValue v)))

/-- Hex digit test used by BSON ObjectId parsing. -/
def isHexDigitChar (c : Char) : Bool :=
  c.isDigit || (decide ('a'.toNat ≤ c.toNat) && decide (c.toNat ≤ 'f'.toNat)) ||
    (decide ('A'.toNat ≤ c.toNat) && decide (c.toNat ≤ 'F'.toNat))

/-- `bson.objectid.ObjectId(s)` accepts exactly the 24-character hex
strings. -/
def isValidObjectId (s : String) : Bool :=
  s.length == 24 && s.data.all isHexDigitChar

/-- The error outcomes raised by `main.py` via `HTTPException`. -/
inductive ApiError where
  /-- Request-body validation failure (pydantic `Field(..., ge=0)` on price,
  checked by the framework before the handler runs). -/
  | validationError
  /-- 400 "Email already registered" -/
  | duplicateEmail
  /-- 401 "Invalid credentials" -/
  | invalidCredentials
  /-- 401 "Missing token" -/
  | missingToken
  /-- 401 "Invalid token" -/
  | invalidToken
  /-- 401 "Unauthorized" -/
  | unauthorized
  /-- 400 "Invalid id" -/
  | invalidId
  /-- 404 "Course not found" / "Product not found" -/
  | notFound
  deriving Repr, DecidableEq

/-- Lowercase a hex digit (the case normalisation BSON ObjectId performs on
its input; only the letters A-F can occur in a string that passed
`isValidObjectId`). -/
def lowerHexChar (c : Char) : Char :=
  match c with
  | 'A' => 'a' | 'B' => 'b' | 'C' => 'c' | 'D' => 'd' | 'E' => 'e' | 'F' => 'f'
  | c => c

/-- Case normalisation of a validated hex string. -/
def lowerHex (s : String) : String :=
  ⟨s.data.map lowerHexChar⟩

/-- `to_object_id` from `main.py`: parse or raise the 400 "Invalid id"
error.  A parsed ObjectId is carried in canonical lowercase hex form. -/
def to_object_id (idStr : String) : Except ApiError String :=
  if isValidObjectId idStr then .ok (lowerHex idStr) else .error .invalidId

/-- A document of the `user` collection, with exactly the fields that
`register` and `login` in `main.py` write: `api_token = none` models the
field being absent from the document. -/
structure UserDoc where
  oid : String
  name : String
  email : String
  password_hash : String
  api_token : Option String
  deriving Repr, DecidableEq

/-- The public projection of a user returned by register, login and `/me`:
the dict literal `{"id": ..., "name": ..., "email": ...}` in `main.py`. -/
structure UserOut where
  id : String
  name : String
  email : String
  deriving Repr, DecidableEq

/-- The whole document store: one list per collection touched by the
endpoints under consideration. -/
structure DB where
  users : List UserDoc
  courses : List Doc
  products : List Doc
  contacts : List Doc
  deriving Repr, DecidableEq

/-- `hash_password` from `main.py`: `hashlib.sha256(password.encode()).
hexdigest()`, with SHA-256 abstracted as the supplied function. -/
def hash_password (sha256hex : String → String) (password : String) : String :=
  sha256hex password

/-- `db["user"].find_one({"email": e})`: the first user document whose email
equals `e`. -/
def find_user_by_email (users : List UserDoc) (e : String) : Option UserDoc :=
  users.find? (fun u => u.email == e)

/-- `db["user"].find_one({"api_token": t})`: the first user document whose
`api_token` field is present and equals `t`. -/
def find_user_by_api_token (users : List UserDoc) (t : String) : Option UserDoc :=
  users.find? (fun u => u.api_token == some t)

/-- `users.update_one({"_id": oid}, {"$set": {"api_token": tok}})`: set the
`api_token` field on the first document whose `_id` equals `oid`. -/
def set_api_token : List UserDoc → String → String → List UserDoc
  | [], _, _ => []
  | u :: us, oid, tok =>
      if u.oid == oid then { u with api_token := some tok } :: us
      else u :: set_api_token us oid tok

/-- `register` from `main.py` (`POST /auth/register`).  `newId` is the
store-generated ObjectId of the inserted document. -/
def register (sha256hex : String → String) (db : DB) (newId : String)
    (name email password : String) : Except ApiError (UserOut × DB) :=
  match find_user_by_email db.users email with
  | some _ => .error .duplicateEmail
  | none =>
      let userDoc : UserDoc :=
        { oid := newId, name := name, email := email
          password_hash := hash_password sha256hex password
          api_token := none }
      .ok ({ id := newId, name := name, email := email },
           { db with users := db.users ++ [userDoc] })

/-- The body returned by a successful login: `{"token": ..., "user": ...}`. -/
structure LoginResult where
  token : String
  user : UserOut
  deriving Repr, DecidableEq

/-- `login` from `main.py` (`POST /auth/login`).  The token is
`hashlib.sha256(str(user["_id"]).encode()).hexdigest()`, i.e. the abstract
hash applied to the hex form of the ObjectId of the matched user. -/
def login (sha256hex : String → String) (db : DB) (email password : String) :
    Except ApiError (LoginResult × DB) :=
  match find_user_by_email db.users email with
  | none => .error .invalidCredentials
  | some user =>
      if user.password_hash ≠ hash_password sha256hex password then
        .error .invalidCredentials
      else
        .ok ({ token := sha256hex user.oid
               user := { id := user.oid, name := user.name, email := user.email } },
             { db with users := set_api_token db.users user.oid (sha256hex user.oid) })

/-- `me` from `main.py` (`GET /me`).  `x_token` is the `X-Token` header,
`none` when absent; Python `if not x_token` also treats the empty string as
missing. -/
def me (db : DB) (x_token : Option String) : Except ApiError UserOut :=
  match x_token with
  | none => .error .missingToken
  | some t =>
      if t == "" then .error .missingToken
      else
        match find_user_by_api_token db.users t with
        | none => .error .invalidToken
        | some u => .ok { id := u.oid, name := u.name, email := u.email }

/-- The auth gate of the creation endpoints:
`if not x_token or not db["user"].find_one({"api_token": x_token})` raises
401 Unauthorized; `authorized` is the negation of that condition. -/
def authorized (db : DB) (x_token : Option String) : Bool :=
  match x_token with
  | none => false
  | some t => t != "" && (find_user_by_api_token db.users t).isSome

/-- The course request body (`Course` pydantic model in `main.py`).  `price`
is constrained by `Field(..., ge=0)`; the model here carries the raw value
and the constraint is checked in `create_course`. -/
structure Course where
  title : String
  description : String
  price : Int
  thumbnail_url : Option String
  video_url : Option String
  level : Option String
  tags : List String
  deriving Repr, DecidableEq

/-- The product request body (`Product` pydantic model in `main.py`). -/
structure Product where
  title : String
  description : String
  price : Int
  image_url : Option String
  file_url : Option String
  category : Option String
  deriving Repr, DecidableEq

/-- A pydantic Optional string field as a stored value. -/
def optStr : Option String → Value
  | none => .vNull
  | some s => .vStr s

/-- Modelled from the spec: `create_document` lives in the repository module
`database`, which is not under `src/`; per §4.4 it inserts the given document
into the named collection and returns the store-generated identifier.  This
is the document a course payload is stored as, `_id` included. -/
def course_doc (newId : String) (c : Course) : Doc :=
  [("_id", .vOid newId),
   ("title", .vStr c.title),
   ("description", .vStr c.description),
   ("price", .vInt c.price),
   ("thumbnail_url", optStr c.thumbnail_url),
   ("video_url", optStr c.video_url),
   ("level", optStr c.level),
   ("tags", .vStrList c.tags)]

/-- Modelled from the spec: the document a product payload is stored as by
`create_document`, `_id` included (see `course_doc`). -/
def product_doc (newId : String) (p : Product) : Doc :=
  [("_id", .vOid newId),
   ("title", .vStr p.title),
   ("description", .vStr p.description),
   ("price", .vInt p.price),
   ("image_url", optStr p.image_url),
   ("file_url", optStr p.file_url),
   ("category", optStr p.category)]

/-- `collection.find_one({"_id": ObjectId(oid)})`: the first document whose
`_id` equals the given ObjectId. -/
def find_doc_by_id (docs : List Doc) (oid : String) : Option Doc :=
  docs.find? (fun d => lookupKey d "_id" == some (.vOid oid))

/-- `create_course` from `main.py` (`POST /courses`).  The pydantic
validation of the body (`price ≥ 0`) runs before the handler; then the auth
gate; then the insert and the re-fetch by the fresh id, serialized.  The
`Option Doc` in the result is the serialized re-fetched document (`none`
would be a null response from a failed re-fetch). -/
def create_course (db : DB) (newId : String) (x_token : Option String)
    (payload : Course) : Except ApiError (Option Doc × DB) :=
  if payload.price < 0 then .error .validationError
  else if authorized db x_token = false then .error .unauthorized
  else
    let db₁ : DB := { db with courses := db.courses ++ [course_doc newId payload] }
    match find_doc_by_id db₁.courses newId with
    | none => .ok (none, db₁)
    | some d => .ok (serialize d, db₁)

/-- `create_product` from `main.py` (`POST /products`), mirroring
`create_course`. -/
def create_product (db : DB) (newId : String) (x_token : Option String)
    (payload : Product) : Except ApiError (Option Doc × DB) :=
  if payload.price < 0 then .error .validationError
  else if authorized db x_token = false then .error .unauthorized
  else
    let db₁ : DB := { db with products := db.products ++ [product_doc newId payload] }
    match find_doc_by_id db₁.products newId with
    | none => .ok (none, db₁)
    | some d => .ok (serialize d, db₁)

/-- `get_course` from `main.py` (`GET /courses/{course_id}`). -/
def get_course (db : DB) (course_id : String) : Except ApiError (Option Doc) :=
  match to_object_id course_id with
  | .error e => .error e
  | .ok oid =>
      match find_doc_by_id db.courses oid with
      | none => .error .notFound
      | some d => .ok (serialize d)

/-- `get_product` from `main.py` (`GET /products/{product_id}`). -/
def get_product (db : DB) (product_id : String) : Except ApiError (Option Doc) :=
  match to_object_id product_id with
  | .error e => .error e
  | .ok oid =>
      match find_doc_by_id db.products oid with
      | none => .error .notFound
      | some d => .ok (serialize d)

/-- Modelled from the spec: `get_documents` lives in the repository module
`database`, which is not under `src/`; per §4.1/§4.4 it returns up to
`limit` documents of the collection in store order. -/
def get_documents (docs : List Doc) (limit : Nat) : List Doc :=
  docs.take limit

/-- `list_courses` from `main.py` (`GET /courses`). -/
def list_courses (db : DB) (limit : Nat) : List (Option Doc) :=
  (get_documents db.courses limit).map serialize

/-- `list_products` from `main.py` (`GET /products`). -/
def list_products (db : DB) (limit : Nat) : List (Option Doc) :=
  (get_documents db.products limit).map serialize

/-- A serialized response document in good shape: some document came back,
it carries the identifier as a string under `id`, and `_id` is gone. -/
def goodSerialized (o : Option Doc) : Prop :=
  ∃ doc, o = some doc ∧ (∃ s, lookupKey doc "id" = some (.vStr s)) ∧
    lookupKey doc "_id" = none

/-! ### Concrete fixtures

A concrete stand-in for the external SHA-256 function and small concrete
stores, used to evaluate the scenario theorems; the behaviour at issue never
depends on which hash function is supplied. -/

/-- Concrete injective stand-in for SHA-256 in scenarios. -/
def sha0 (s : String) : String := "#" ++ s

/-- A store holding one registered user (email `a@x`, password hash
`sha0 "pw"`, no token yet). -/
def dbA : DB :=
  { users := [{ oid := "idA", name := "A", email := "a@x"
                password_hash := "#pw", api_token := none }]
    courses := [], products := [], contacts := [] }

/-- `dbA` after a successful login: the single user now carries the token
`sha0 "idA" = "#idA"`. -/
def dbA1 : DB :=
  { users := [{ oid := "idA", name := "A", email := "a@x"
                password_hash := "#pw", api_token := some "#idA" }]
    courses := [], products := [], contacts := [] }

/-- A minimal valid course payload with price 0. -/
def c0 : Course :=
  { title := "t", description := "d", price := 0
    thumbnail_url := none, video_url := none, level := none, tags := [] }

/-- The same course payload with the out-of-range price -1. -/
def cNeg : Course := { c0 with price := -1 }

/-- A minimal valid product payload with price 0. -/
def p0 : Product :=
  { title := "t", description := "d", price := 0
    image_url := none, file_url := none, category := none }

/-- The same product payload with the out-of-range price -1. -/
def pNeg : Product := { p0 with price := -1 }

/-- A store with the logged-in user of `dbA1` plus one stored course and one
stored product. -/
def dbC : DB :=
  { users := dbA1.users
    courses := [course_doc "00000000000000000000000a" c0]
    products := [product_doc "00000000000000000000000b" p0]
    contacts := [] }

/-! ### Helper lemmas about documents -/

theorem find?_cons_true {α : Type} (p : α → Bool) (a : α) (l : List α)
    (h : p a = true) : (a :: l).find? p = some a :=
  List.find?_cons_of_pos l h

theorem find?_cons_false {α : Type} (p : α → Bool) (a : α) (l : List α)
    (h : p a = false) : (a :: l).find? p = l.find? p :=
  List.find?_cons_of_neg l (by simp [h])

theorem lookupKey_eq_none_iff (d : Doc) (k : String) :
    lookupKey d k = none ↔ countKey d k = 0 := by
  simp [lookupKey, countKey, List.find?_eq_none, List.length_eq_zero,
    List.filter_eq_nil_iff]

theorem lookupKey_isSome_of_countKey_one (d : Doc) (k : String)
    (h : countKey d k = 1) : ∃ v, lookupKey d k = some v := by
  cases hl : lookupKey d k with
  | some v => exact ⟨v, rfl⟩
  | none =>
      rw [lookupKey_eq_none_iff] at hl
      omega

theorem countKey_eraseKey (d : Doc) (k : String) (h : countKey d k = 1) :
    countKey (eraseKey d k) k = 0 := by
  induction d with
  | nil => rfl
  | cons p d ih =>
      obtain ⟨k₁, v₁⟩ := p
      cases hk : (k₁ == k) with
      | true =>
          have hc : countKey d k = 0 := by
            simp only [countKey, List.filter_cons, hk] at h ⊢
            simpa using h
          simp only [eraseKey, List.eraseP_cons, hk, cond_true]
          exact hc
      | false =>
          have hc : countKey d k = 1 := by
            simpa only [countKey, List.filter_cons, hk, if_neg, Bool.false_eq_true,
              not_false_iff] using h
          simp only [eraseKey, List.eraseP_cons, hk, cond_false]
          simp only [countKey, List.filter_cons, hk, Bool.false_eq_true, if_false]
          exact ih hc

theorem lookupKey_setKey_self (d : Doc) (k : String) (v : Value) :
    lookupKey (setKey d k v) k = some v := by
  induction d with
  | nil =>
      simp only [setKey, lookupKey]
      rw [find?_cons_true (fun p => p.1 == k) (k, v) [] (by simp)]
      rfl
  | cons p d ih =>
      obtain ⟨k₁, v₁⟩ := p
      cases hk : (k₁ == k) with
      | true =>
          simp only [setKey, hk, if_true, lookupKey]
          rw [find?_cons_true (fun p => p.1 == k) (k, v) d (by simp)]
          rfl
      | false =>
          simp only [setKey, hk, Bool.false_eq_true, if_false, lookupKey] at ih ⊢
          rw [find?_cons_false (fun p => p.1 == k) (k₁, v₁) (setKey d k v) (by simpa using hk)]
          exact ih

theorem lookupKey_setKey_ne (d : Doc) (k k₂ : String) (v : Value) (h : k₂ ≠ k) :
    lookupKey (setKey d k v) k₂ = lookupKey d k₂ := by
  have hkk₂ : (k == k₂) = false := by
    simp only [beq_eq_false_iff_ne, ne_eq]
    exact fun hc => h hc.symm
  induction d with
  | nil =>
      simp only [setKey, lookupKey]
      rw [find?_cons_false (fun p => p.1 == k₂) (k, v) [] (by simpa using hkk₂)]
  | cons p d ih =>
      obtain ⟨k₁, v₁⟩ := p
      cases hk : (k₁ == k) with
      | true =>
          have hkeq : k₁ = k := by simpa using hk
          subst hkeq
          simp only [setKey, beq_self_eq_true, if_true, lookupKey]
          rw [find?_cons_false (fun p => p.1 == k₂) (k₁, v) d (by simpa using hkk₂),
            find?_cons_false (fun p => p.1 == k₂) (k₁, v₁) d (by simpa using hkk₂)]
      | false =>
          simp only [setKey, hk, Bool.false_eq_true, if_false, lookupKey] at ih ⊢
          cases hk₂ : (k₁ == k₂) with
          | true =>
              rw [find?_cons_true (fun p => p.1 == k₂) (k₁, v₁) (setKey d k v) (by simpa using hk₂),
                find?_cons_true (fun p => p.1 == k₂) (k₁, v₁) d (by simpa using hk₂)]
          | false =>
              rw [find?_cons_false (fun p => p.1 == k₂) (k₁, v₁) (setKey d k v) (by simpa using hk₂),
                find?_cons_false (fun p => p.1 == k₂) (k₁, v₁) d (by simpa using hk₂)]
              exact ih

theorem serialize_of_countKey_one (d : Doc) (h : countKey d "_id" = 1) :
    goodSerialized (serialize d) := by
  obtain ⟨v, hv⟩ := lookupKey_isSome_of_countKey_one d "_id" h
  have hne : d.isEmpty = false := by
    cases d with
    | nil => simp [lookupKey] at hv
    | cons p d => rfl
  refine ⟨setKey (eraseKey d "_id") "id" (.vStr (strOfValue v)), ?_, ?_, ?_⟩
  · simp [serialize, hne, hv]
  · exact ⟨strOfValue v, lookupKey_setKey_self _ _ _⟩
  · rw [lookupKey_setKey_ne _ _ _ _ (by decide)]
    rw [lookupKey_eq_none_iff]
    exact countKey_eraseKey d "_id" h

/-! ### Helper lemmas about list search and update -/

theorem find?_append_singleton {α : Type} (p : α → Bool) (l : List α) (a : α)
    (hall : ∀ x ∈ l, p x = false) (hp : p a = true) :
    (l ++ [a]).find? p = some a := by
  induction l with
  | nil =>
      rw [List.nil_append]
      exact find?_cons_true p a [] hp
  | cons x l ih =>
      rw [List.cons_append, find?_cons_false p x (l ++ [a]) (hall x (by simp))]
      exact ih (fun y hy => hall y (by simp [hy]))

theorem find?_set_of_all_neg {α : Type} (p : α → Bool) (l : List α) (i : Nat) (a : α)
    (hi : i < l.length) (hall : ∀ x ∈ l, p x = false) (hp : p a = true) :
    (l.set i a).find? p = some a := by
  induction l generalizing i with
  | nil => simp at hi
  | cons x l ih =>
      cases i with
      | zero =>
          rw [List.set_cons_zero]
          exact find?_cons_true p a l hp
      | succ i =>
          rw [List.set_cons_succ, find?_cons_false p x (l.set i a) (hall x (by simp))]
          exact ih i (by simpa using hi) (fun y hy => hall y (by simp [hy]))

/-! ### Helper lemmas about the user collection -/

theorem find_email_set_api (users : List UserDoc) (e tok : String) (u : UserDoc)
    (hnd : (users.map UserDoc.oid).Nodup)
    (hf : find_user_by_email users e = some u) :
    find_user_by_email (set_api_token users u.oid tok) e
      = some { u with api_token := some tok } := by
  induction users with
  | nil => simp [find_user_by_email] at hf
  | cons v us ih =>
      simp only [find_user_by_email] at hf ⊢
      cases hv : (v.email == e) with
      | true =>
          rw [find?_cons_true (fun u => u.email == e) v us hv] at hf
          obtain rfl : v = u := by injection hf
          simp only [set_api_token, if_pos (beq_self_eq_true v.oid)]
          rw [find?_cons_true (fun u₂ => u₂.email == e) { v with api_token := some tok } us hv]
      | false =>
          rw [find?_cons_false (fun u => u.email == e) v us hv] at hf
          rw [List.map_cons, List.nodup_cons] at hnd
          have hmem : u ∈ us := List.mem_of_find?_eq_some hf
          have hoid : (v.oid == u.oid) = false := by
            simp only [beq_eq_false_iff_ne, ne_eq]
            intro hcontra
            exact hnd.1 (hcontra ▸ List.mem_map_of_mem UserDoc.oid hmem)
          simp only [set_api_token, hoid, Bool.false_eq_true, if_false]
          rw [find?_cons_false (fun u₂ => u₂.email == e) v (set_api_token us u.oid tok) hv]
          exact ih hnd.2 hf

theorem find_token_set_api (users : List UserDoc) (e tok : String) (u : UserDoc)
    (hnd : (users.map UserDoc.oid).Nodup)
    (hf : find_user_by_email users e = some u)
    (hshared : ∀ v ∈ users, v.api_token = some tok → v.oid = u.oid) :
    find_user_by_api_token (set_api_token users u.oid tok) tok
      = some { u with api_token := some tok } := by
  induction users with
  | nil => simp [find_user_by_email] at hf
  | cons v us ih =>
      simp only [find_user_by_email] at hf
      simp only [find_user_by_api_token]
      cases hv : (v.email == e) with
      | true =>
          rw [find?_cons_true (fun u₂ => u₂.email == e) v us hv] at hf
          obtain rfl : v = u := by injection hf
          simp only [set_api_token, if_pos (beq_self_eq_true v.oid)]
          rw [find?_cons_true (fun u₂ => u₂.api_token == some tok)
            { v with api_token := some tok } us (by rw [beq_iff_eq])]
      | false =>
          rw [find?_cons_false (fun u₂ => u₂.email == e) v us hv] at hf
          rw [List.map_cons, List.nodup_cons] at hnd
          have hmem : u ∈ us := List.mem_of_find?_eq_some hf
          have hoid : v.oid ≠ u.oid := by
            intro hcontra
            exact hnd.1 (hcontra ▸ List.mem_map_of_mem UserDoc.oid hmem)
          have hvtok : (v.api_token == some tok) = false := by
            simp only [beq_eq_false_iff_ne, ne_eq]
            intro hcontra
            exact hoid (hshared v (List.mem_cons_self v us) hcontra)
          simp only [set_api_token, beq_eq_false_iff_ne.mpr hoid, Bool.false_eq_true,
            if_false]
          rw [find?_cons_false (fun u₂ => u₂.api_token == some tok) v
            (set_api_token us u.oid tok) hvtok]
          have hrec := ih hnd.2 hf
            (fun w hw hwt => hshared w (List.mem_cons_of_mem v hw) hwt)
          simpa only [find_user_by_api_token] using hrec

theorem set_api_token_spec (users : List UserDoc) (e tok : String) (u : UserDoc)
    (hnd : (users.map UserDoc.oid).Nodup)
    (hf : find_user_by_email users e = some u) :
    ∃ i : Fin users.length, users.get i = u ∧
      set_api_token users u.oid tok = users.set i.1 { u with api_token := some tok } := by
  induction users with
  | nil => simp [find_user_by_email] at hf
  | cons v us ih =>
      simp only [find_user_by_email] at hf
      cases hv : (v.email == e) with
      | true =>
          rw [find?_cons_true (fun u => u.email == e) v us hv] at hf
          obtain rfl : v = u := by injection hf
          refine ⟨⟨0, by simp⟩, rfl, ?_⟩
          simp only [set_api_token, if_pos (beq_self_eq_true v.oid), List.set_cons_zero]
      | false =>
          rw [find?_cons_false (fun u => u.email == e) v us hv] at hf
          rw [List.map_cons, List.nodup_cons] at hnd
          have hmem : u ∈ us := List.mem_of_find?_eq_some hf
          have hoid : (v.oid == u.oid) = false := by
            simp only [beq_eq_false_iff_ne, ne_eq]
            intro hcontra
            exact hnd.1 (hcontra ▸ List.mem_map_of_mem UserDoc.oid hmem)
          obtain ⟨i, hget, hset⟩ := ih hnd.2 hf
          refine ⟨⟨i.1 + 1, Nat.succ_lt_succ i.2⟩, hget, ?_⟩
          simp only [set_api_token, hoid, Bool.false_eq_true, if_false, List.set_cons_succ]
          rw [hset]

theorem mem_set_api_token_self (users : List UserDoc) (u : UserDoc) (tok : String)
    (hu : u ∈ users) :
    ∃ w ∈ set_api_token users u.oid tok, w.api_token = some tok := by
  induction users with
  | nil => simp at hu
  | cons v us ih =>
      cases h : (v.oid == u.oid) with
      | true =>
          refine ⟨{ v with api_token := some tok }, ?_, rfl⟩
          simp only [set_api_token, h, if_true]
          exact List.mem_cons_self _ _
      | false =>
          have hmem : u ∈ us := by
            rcases List.mem_cons.mp hu with heq | hmem
            · rw [heq] at h
              simp at h
            · exact hmem
          obtain ⟨w, hw, hwt⟩ := ih hmem
          refine ⟨w, ?_, hwt⟩
          simp only [set_api_token, h, Bool.false_eq_true, if_false]
          exact List.mem_cons_of_mem _ hw

/-! ### Characterisation of login -/

theorem login_ok_iff (sha : String → String) (db : DB) (e p : String)
    (r : LoginResult) (db₂ : DB) :
    login sha db e p = .ok (r, db₂) ↔
      ∃ u, find_user_by_email db.users e = some u ∧ u.password_hash = sha p ∧
        r = { token := sha u.oid
              user := { id := u.oid, name := u.name, email := u.email } } ∧
        db₂ = { db with users := set_api_token db.users u.oid (sha u.oid) } := by
  unfold login hash_password
  cases hfu : find_user_by_email db.users e with
  | none => simp
  | some u =>
      by_cases hpw : u.password_hash = sha p
      · simp only [hpw, ne_eq, not_true_eq_false, if_false]
        constructor
        · intro h
          injection h with h
          injection h with h₁ h₂
          exact ⟨u, rfl, hpw, h₁.symm, h₂.symm⟩
        · rintro ⟨u₂, hu₂, _, rfl, rfl⟩
          injection hu₂ with hu₂
          subst hu₂
          rfl
      · simp only [hpw, ne_eq, not_false_iff, if_true]
        constructor
        · intro h
          exact absurd h (by simp)
        · rintro ⟨u₂, hu₂, hpw₂, _, _⟩
          injection hu₂ with hu₂
          exact absurd (hu₂ ▸ hpw₂) hpw

theorem me_isOk_of_mem (db : DB) (t : String) (hne : t ≠ "")
    (h : ∃ w ∈ db.users, w.api_token = some t) : (me db (some t)).isOk := by
  obtain ⟨w, hw, hwt⟩ := h
  have hs : (find_user_by_api_token db.users t).isSome := by
    rw [find_user_by_api_token, List.find?_isSome]
    exact ⟨w, hw, by simp [hwt]⟩
  obtain ⟨x, hx⟩ := Option.isSome_iff_exists.mp hs
  simp [me, hne, hx, Except.isOk, Except.toBool]

/-! ### Claim theorems -/

/-- C2: `login(email, password)` succeeds iff a user with that email is found
and the hash of the supplied password equals that stored `password_hash`; in
every other case (absent email or hash mismatch) it fails with the one and
only `InvalidCredentials` error, revealing nothing about whether the email
exists. -/
theorem login_iff_credentials (sha : String → String) (db : DB) (e p : String) :
    ((login sha db e p).isOk = true ↔
      ∃ u, find_user_by_email db.users e = some u ∧ u.password_hash = sha p)
  ∧ ∀ err, login sha db e p = .error err → err = .invalidCredentials := by
  unfold login hash_password
  cases hfu : find_user_by_email db.users e with
  | none =>
      constructor
      · constructor
        · intro h
          simp [Except.isOk, Except.toBool] at h
        · rintro ⟨u, hu, _⟩
          exact absurd hu (by simp)
      · intro err h
        injection h with h
        exact h.symm
  | some u =>
      dsimp only
      by_cases hpw : u.password_hash = sha p
      · rw [if_neg (by simp [hpw])]
        constructor
        · exact ⟨fun _ => ⟨u, rfl, hpw⟩, fun _ => rfl⟩
        · intro err h
          exact absurd h (by simp)
      · rw [if_pos (by simp [hpw])]
        constructor
        · constructor
          · intro h
            simp [Except.isOk, Except.toBool] at h
          · rintro ⟨u₂, hu₂, hp₂⟩
            injection hu₂ with h₂
            subst h₂
            exact absurd hp₂ hpw
        · intro err h
          injection h with h
          exact h.symm

/-- C2 witness: on the concrete one-user store the login with the matching
password succeeds. -/
theorem login_iff_credentials_witness : (login sha0 dbA "a@x" "pw").isOk = true :=
  (login_iff_credentials sha0 dbA "a@x" "pw").1.mpr
    ⟨{ oid := "idA", name := "A", email := "a@x", password_hash := "#pw"
       api_token := none }, rfl, rfl⟩

/-- C3: `register` fails with `DuplicateEmail` when the email is already
taken, and otherwise inserts a user whose `password_hash` is the hash of the
password and whose token field is absent, returning exactly the public
projection of id, name and email. -/
theorem register_spec (sha : String → String) (db : DB)
    (newId nm e pw : String) :
    ((find_user_by_email db.users e).isSome = true →
        register sha db newId nm e pw = .error .duplicateEmail)
  ∧ (find_user_by_email db.users e = none →
        register sha db newId nm e pw
          = .ok ({ id := newId, name := nm, email := e },
                 { db with users := db.users ++
                     [{ oid := newId, name := nm, email := e
                        password_hash := sha pw, api_token := none }] })) := by
  unfold register hash_password
  cases hfu : find_user_by_email db.users e with
  | none => exact ⟨by simp, fun _ => rfl⟩
  | some u => exact ⟨fun _ => rfl, by simp⟩

/-- C3 witness: registering a fresh email on the one-user store inserts
exactly the expected user document and returns the public projection. -/
theorem register_spec_witness :
    register sha0 dbA "idB" "B" "b@x" "q"
      = .ok ({ id := "idB", name := "B", email := "b@x" },
             { dbA with users := dbA.users ++
                 [{ oid := "idB", name := "B", email := "b@x"
                    password_hash := sha0 "q", api_token := none }] }) :=
  (register_spec sha0 dbA "idB" "B" "b@x" "q").2 rfl

/-- C5: creating a course or product with price -1 fails with the validation
error whatever token is supplied, and with price 0 and an authorizing token
the create succeeds. -/
theorem create_price_validation (db : DB) (newId : String) (xt : Option String)
    (t : String) (c : Course) (pr : Product) :
    (c.price = -1 → create_course db newId xt c = .error .validationError)
  ∧ (pr.price = -1 → create_product db newId xt pr = .error .validationError)
  ∧ (c.price = 0 → authorized db (some t) = true →
        (create_course db newId (some t) c).isOk = true)
  ∧ (pr.price = 0 → authorized db (some t) = true →
        (create_product db newId (some t) pr).isOk = true) := by
  refine ⟨?_, ?_, ?_, ?_⟩
  · intro hp
    unfold create_course
    rw [if_pos (by rw [hp]; decide)]
  · intro hp
    unfold create_product
    rw [if_pos (by rw [hp]; decide)]
  · intro hp hauth
    unfold create_course
    rw [if_neg (by rw [hp]; decide), if_neg (by simp [hauth])]
    cases hfd : find_doc_by_id (db.courses ++ [course_doc newId c]) newId with
    | none => simp [hfd, Except.isOk, Except.toBool]
    | some d => simp [hfd, Except.isOk, Except.toBool]
  · intro hp hauth
    unfold create_product
    rw [if_neg (by rw [hp]; decide), if_neg (by simp [hauth])]
    cases hfd : find_doc_by_id (db.products ++ [product_doc newId pr]) newId with
    | none => simp [hfd, Except.isOk, Except.toBool]
    | some d => simp [hfd, Except.isOk, Except.toBool]

/-- C5 witness: on the concrete store, price -1 is rejected even with a bad
token, and price 0 with the valid token succeeds. -/
theorem create_price_validation_witness :
    create_course dbA1 "idC" (some "garbage") cNeg = .error .validationError
  ∧ (create_course dbA1 "idC" (some "#idA") c0).isOk = true :=
  ⟨(create_price_validation dbA1 "idC" (some "garbage") "#idA" cNeg p0).1 rfl,
   (create_price_validation dbA1 "idC" (some "garbage") "#idA" c0 p0).2.2.1 rfl rfl⟩

/-- C7: `get` with a malformed identifier fails with `InvalidId`; with a
well-formed identifier matching no stored document it fails with `NotFound`;
otherwise it returns the (serialized) matching document — for both courses
and products. -/
theorem get_by_id_spec (db : DB) (s : String) :
    (isValidObjectId s = false →
        get_course db s = .error .invalidId ∧ get_product db s = .error .invalidId)
  ∧ (isValidObjectId s = true →
        (find_doc_by_id db.courses (lowerHex s) = none →
            get_course db s = .error .notFound)
        ∧ (find_doc_by_id db.products (lowerHex s) = none →
            get_product db s = .error .notFound)
        ∧ (∀ d, find_doc_by_id db.courses (lowerHex s) = some d →
            get_course db s = .ok (serialize d))
        ∧ (∀ d, find_doc_by_id db.products (lowerHex s) = some d →
            get_product db s = .ok (serialize d))) := by
  constructor
  · intro hv
    unfold get_course get_product to_object_id
    rw [if_neg (by simp [hv])]
    exact ⟨rfl, rfl⟩
  · intro hv
    refine ⟨?_, ?_, ?_, ?_⟩
    · intro h
      simp [get_course, to_object_id, hv, h]
    · intro h
      simp [get_product, to_object_id, hv, h]
    · intro d h
      simp [get_course, to_object_id, hv, h]
    · intro d h
      simp [get_product, to_object_id, hv, h]

/-- C7 witness: on the concrete store, a malformed id gives `InvalidId`, the
all-zero well-formed id gives `NotFound`, and the stored id returns the
serialized course. -/
theorem get_by_id_spec_witness :
    (get_course dbC "not-an-id" = .error .invalidId
      ∧ get_product dbC "not-an-id" = .error .invalidId)
  ∧ get_course dbC "000000000000000000000000" = .error .notFound
  ∧ get_course dbC "00000000000000000000000a"
      = .ok (serialize (course_doc "00000000000000000000000a" c0)) :=
  ⟨(get_by_id_spec dbC "not-an-id").1 rfl,
   ((get_by_id_spec dbC "000000000000000000000000").2 rfl).1 rfl,
   ((get_by_id_spec dbC "00000000000000000000000a").2 rfl).2.2.1 _ rfl⟩

/-- C8: an empty `X-Token` header is treated exactly like an absent one:
`/me` fails with `MissingToken` (which differs from `InvalidToken`), and the
token-gated create endpoints fail with `Unauthorized` — for every store
contents, i.e. without any token lookup being consulted. -/
theorem empty_token_like_absent (db : DB) (newId : String) (c : Course)
    (pr : Product) (hc : 0 ≤ c.price) (hpr : 0 ≤ pr.price) :
    me db (some "") = .error .missingToken
  ∧ ApiError.missingToken ≠ ApiError.invalidToken
  ∧ me db (some "") = me db none
  ∧ create_course db newId (some "") c = .error .unauthorized
  ∧ create_course db newId (some "") c = create_course db newId none c
  ∧ create_product db newId (some "") pr = .error .unauthorized
  ∧ create_product db newId (some "") pr = create_product db newId none pr := by
  have hc₂ : ¬ (c.price < 0) := by omega
  have hpr₂ : ¬ (pr.price < 0) := by omega
  have hauth : authorized db (some "") = false := rfl
  have hauthn : authorized db none = false := rfl
  refine ⟨rfl, by decide, rfl, ?_, ?_, ?_, ?_⟩
  · unfold create_course
    rw [if_neg hc₂, if_pos hauth]
  · unfold create_course
    rw [if_neg hc₂, if_pos hauth, if_neg hc₂, if_pos hauthn]
  · unfold create_product
    rw [if_neg hpr₂, if_pos hauth]
  · unfold create_product
    rw [if_neg hpr₂, if_pos hauth, if_neg hpr₂, if_pos hauthn]

/-- C8 witness at the concrete logged-in store and the concrete valid
payloads. -/
theorem empty_token_like_absent_witness :
    me dbA1 (some "") = .error .missingToken
  ∧ ApiError.missingToken ≠ ApiError.invalidToken
  ∧ me dbA1 (some "") = me dbA1 none
  ∧ create_course dbA1 "idC" (some "") c0 = .error .unauthorized
  ∧ create_course dbA1 "idC" (some "") c0 = create_course dbA1 "idC" none c0
  ∧ create_product dbA1 "idC" (some "") p0 = .error .unauthorized
  ∧ create_product dbA1 "idC" (some "") p0 = create_product dbA1 "idC" none p0 :=
  empty_token_like_absent dbA1 "idC" c0 p0 (by decide) (by decide)

/-- C1 counterexample: on the concrete one-user store, the second login
returns the very same token as the first one (both are the hash of the fixed
user id) and the first token still authenticates afterwards — refuting both
`T1 ≠ T2` and `authenticate(T1) fails`. -/
theorem second_login_counterexample :
    login sha0 dbA "a@x" "pw"
      = .ok ({ token := "#idA", user := { id := "idA", name := "A", email := "a@x" } },
             dbA1)
  ∧ login sha0 dbA1 "a@x" "pw"
      = .ok ({ token := "#idA", user := { id := "idA", name := "A", email := "a@x" } },
             dbA1)
  ∧ me dbA1 (some "#idA") = .ok { id := "idA", name := "A", email := "a@x" } :=
  ⟨rfl, rfl, rfl⟩

/-- C1 (amended): a second successful login issues the SAME token as the
first one — the token is a deterministic function of the user id, so no
invalidation happens: after the second login the old token still
authenticates (it is equal to the new one). -/
theorem second_login_same_token (sha : String → String) (db : DB) (e p : String)
    (r₁ r₂ : LoginResult) (db₁ db₂ : DB)
    (hnd : (db.users.map UserDoc.oid).Nodup)
    (h₁ : login sha db e p = .ok (r₁, db₁))
    (h₂ : login sha db₁ e p = .ok (r₂, db₂))
    (hne : r₁.token ≠ "") :
    r₂.token = r₁.token
  ∧ (me db₂ (some r₁.token)).isOk = true
  ∧ (me db₂ (some r₂.token)).isOk = true := by
  obtain ⟨u, hfu, hpw, hr₁, hdb₁⟩ := (login_ok_iff sha db e p r₁ db₁).mp h₁
  subst hr₁
  subst hdb₁
  obtain ⟨u₂, hfu₂, hpw₂, hr₂, hdb₂⟩ := (login_ok_iff sha _ e p r₂ db₂).mp h₂
  subst hr₂
  subst hdb₂
  have hfind₂ := find_email_set_api db.users e (sha u.oid) u hnd hfu
  rw [hfind₂] at hfu₂
  injection hfu₂ with hu₂
  subst hu₂
  have hmem : ({ u with api_token := some (sha u.oid) } : UserDoc)
      ∈ set_api_token db.users u.oid (sha u.oid) :=
    List.mem_of_find?_eq_some hfind₂
  obtain ⟨w, hw, hwt⟩ := mem_set_api_token_self
    (set_api_token db.users u.oid (sha u.oid))
    { u with api_token := some (sha u.oid) } (sha u.oid) hmem
  exact ⟨rfl,
    me_isOk_of_mem _ (sha u.oid) hne ⟨w, hw, hwt⟩,
    me_isOk_of_mem _ (sha u.oid) hne ⟨w, hw, hwt⟩⟩

/-- C1 witness: the amended theorem applied to the concrete scenario — both
logins return the token `"#idA"`, which authenticates. -/
theorem second_login_same_token_witness :
    ("#idA" : String) = "#idA"
  ∧ (me dbA1 (some "#idA")).isOk = true
  ∧ (me dbA1 (some "#idA")).isOk = true :=
  second_login_same_token sha0 dbA "a@x" "pw"
    { token := "#idA", user := { id := "idA", name := "A", email := "a@x" } }
    { token := "#idA", user := { id := "idA", name := "A", email := "a@x" } }
    dbA1 dbA1 (by decide) rfl rfl (by decide)

/-- C4 counterexample: the empty string is not the stored token of any user
of the concrete store, yet `/me` with an empty token fails with
`MissingToken`, not with `InvalidToken` as the claim states. -/
theorem authenticate_counterexample :
    (∀ u ∈ dbA1.users, u.api_token ≠ some "")
  ∧ me dbA1 (some "") = .error .missingToken
  ∧ ApiError.missingToken ≠ ApiError.invalidToken :=
  ⟨by decide, rfl, by decide⟩

/-- C4 (amended): immediately after a successful login whose (nonempty)
token is `T`, `authenticate(T)` returns the same user projection — under the
store invariant that any user document holding `T` is the logged-in user
itself (true of the real store, where each token is the hash of the unique
id of its own user); this covers a repeat login, where the user already held
`T`.  And every NONEMPTY string that is not the stored `api_token` of any
user fails with `InvalidToken` (the empty string fails with `MissingToken`
instead). -/
theorem authenticate_roundtrip (sha : String → String) (db : DB) (e p : String)
    (u : UserDoc) (r : LoginResult) (db₂ : DB)
    (hnd : (db.users.map UserDoc.oid).Nodup)
    (hu : find_user_by_email db.users e = some u)
    (h : login sha db e p = .ok (r, db₂))
    (hne : r.token ≠ "")
    (hshared : ∀ v ∈ db.users, v.api_token = some r.token → v.oid = u.oid) :
    me db₂ (some r.token) = .ok r.user
  ∧ ∀ (db₃ : DB) (s : String), s ≠ "" →
      (∀ v ∈ db₃.users, v.api_token ≠ some s) →
      me db₃ (some s) = .error .invalidToken := by
  constructor
  · obtain ⟨u₂, hfu, hpw, hr, hdb⟩ := (login_ok_iff sha db e p r db₂).mp h
    subst hr
    subst hdb
    rw [hu] at hfu
    injection hfu with huu
    subst huu
    have hfind := find_token_set_api db.users e (sha u.oid) u hnd hu
      (fun v hv hvt => hshared v hv hvt)
    simp [me, hne, hfind]
  · intro db₃ s hs hnone
    have hfind : find_user_by_api_token db₃.users s = none := by
      rw [find_user_by_api_token, List.find?_eq_none]
      intro x hx
      simp only [beq_iff_eq]
      exact hnone x hx
    simp [me, hs, hfind]

/-- C4 witness, exercising the repeat-login case: on the store whose user
already holds the token, a further login returns the same token, which
authenticates as user A; and the unrelated nonempty string "zz" fails with
`InvalidToken`. -/
theorem authenticate_roundtrip_witness :
    me dbA1 (some "#idA") = .ok { id := "idA", name := "A", email := "a@x" }
  ∧ me dbA1 (some "zz") = .error .invalidToken :=
  ⟨(authenticate_roundtrip sha0 dbA1 "a@x" "pw"
      { oid := "idA", name := "A", email := "a@x", password_hash := "#pw"
        api_token := some "#idA" }
      { token := "#idA", user := { id := "idA", name := "A", email := "a@x" } }
      dbA1 (by decide) rfl rfl (by decide) (by decide)).1,
   (authenticate_roundtrip sha0 dbA1 "a@x" "pw"
      { oid := "idA", name := "A", email := "a@x", password_hash := "#pw"
        api_token := some "#idA" }
      { token := "#idA", user := { id := "idA", name := "A", email := "a@x" } }
      dbA1 (by decide) rfl rfl (by decide) (by decide)).2 dbA1 "zz"
      (by decide) (by decide)⟩

/-- C9: a successful login leaves the course, product and contact
collections untouched and, among the user documents, rewrites exactly the
email-matched one, changing only its `api_token` field: name, email and
password hash are preserved and every other user document is unchanged. -/
theorem login_frame (sha : String → String) (db : DB) (e p : String)
    (r : LoginResult) (db₂ : DB)
    (hnd : (db.users.map UserDoc.oid).Nodup)
    (h : login sha db e p = .ok (r, db₂)) :
    db₂.courses = db.courses ∧ db₂.products = db.products
  ∧ db₂.contacts = db.contacts
  ∧ ∃ i : Fin db.users.length, ∃ u₂ : UserDoc,
      find_user_by_email db.users e = some (db.users.get i) ∧
      db₂.users = db.users.set i.1 u₂ ∧
      u₂.name = (db.users.get i).name ∧
      u₂.email = (db.users.get i).email ∧
      u₂.password_hash = (db.users.get i).password_hash ∧
      u₂.api_token = some r.token ∧
      ∀ j : Nat, j ≠ i.1 → db₂.users[j]? = db.users[j]? := by
  obtain ⟨u, hfu, hpw, hr, hdb⟩ := (login_ok_iff sha db e p r db₂).mp h
  subst hr
  subst hdb
  obtain ⟨i, hget, hset⟩ := set_api_token_spec db.users e (sha u.oid) u hnd hfu
  refine ⟨rfl, rfl, rfl, i, { u with api_token := some (sha u.oid) },
    ?_, hset, ?_, ?_, ?_, rfl, ?_⟩
  · rw [hget]
    exact hfu
  · rw [hget]
  · rw [hget]
  · rw [hget]
  · intro j hj
    show (set_api_token db.users u.oid (sha u.oid))[j]? = db.users[j]?
    rw [hset]
    exact List.getElem?_set_ne (Ne.symm hj)

/-- C9 witness: the frame part of the theorem at the concrete scenario. -/
theorem login_frame_witness :
    dbA1.courses = dbA.courses ∧ dbA1.products = dbA.products
  ∧ dbA1.contacts = dbA.contacts :=
  ⟨(login_frame sha0 dbA "a@x" "pw"
      { token := "#idA", user := { id := "idA", name := "A", email := "a@x" } }
      dbA1 (by decide) rfl).1,
   (login_frame sha0 dbA "a@x" "pw"
      { token := "#idA", user := { id := "idA", name := "A", email := "a@x" } }
      dbA1 (by decide) rfl).2.1,
   (login_frame sha0 dbA "a@x" "pw"
      { token := "#idA", user := { id := "idA", name := "A", email := "a@x" } }
      dbA1 (by decide) rfl).2.2.1⟩

/-- C6 counterexample: with an absent token AND a body failing validation,
the create endpoint fails with the validation error, not `Unauthorized` —
the framework validates the body before the handler checks the token, so
"fails with Unauthorized whenever the token is absent" does not hold for
validation-failing payloads. -/
theorem create_auth_counterexample :
    create_course dbA1 "00000000000000000000000c" none cNeg = .error .validationError
  ∧ ApiError.validationError ≠ ApiError.unauthorized :=
  ⟨rfl, by decide⟩

/-- C6 (amended): for payloads that pass validation (price ≥ 0), create
fails with `Unauthorized` whenever the token is absent or equals no stored
`api_token`; and with an authorizing token it appends the document to the
collection and returns the freshly inserted document, its generated
identifier included under `id`. -/
theorem create_auth_spec (db : DB) (newId : String) (xt : Option String)
    (c : Course) (pr : Product) (hc : 0 ≤ c.price) (hpr : 0 ≤ pr.price) :
    ((xt = none ∨ ∃ t, xt = some t ∧ ∀ u ∈ db.users, u.api_token ≠ some t) →
        create_course db newId xt c = .error .unauthorized
      ∧ create_product db newId xt pr = .error .unauthorized)
  ∧ (authorized db xt = true →
      ((∀ d ∈ db.courses, lookupKey d "_id" ≠ some (.vOid newId)) →
        ∃ doc, serialize (course_doc newId c) = some doc ∧
          create_course db newId xt c
            = .ok (some doc,
                   { db with courses := db.courses ++ [course_doc newId c] }) ∧
          lookupKey doc "id" = some (.vStr newId))
      ∧ ((∀ d ∈ db.products, lookupKey d "_id" ≠ some (.vOid newId)) →
        ∃ doc, serialize (product_doc newId pr) = some doc ∧
          create_product db newId xt pr
            = .ok (some doc,
                   { db with products := db.products ++ [product_doc newId pr] }) ∧
          lookupKey doc "id" = some (.vStr newId))) := by
  have hc₂ : ¬ (c.price < 0) := by omega
  have hpr₂ : ¬ (pr.price < 0) := by omega
  constructor
  · intro hbad
    have hauth : authorized db xt = false := by
      rcases hbad with rfl | ⟨t, rfl, hnone⟩
      · rfl
      · by_cases ht : t = ""
        · subst ht
          rfl
        · have hfind : find_user_by_api_token db.users t = none := by
            rw [find_user_by_api_token, List.find?_eq_none]
            intro x hx
            simp only [beq_iff_eq]
            exact hnone x hx
          simp [authorized, hfind, ht]
    constructor
    · unfold create_course
      rw [if_neg hc₂, if_pos hauth]
    · unfold create_product
      rw [if_neg hpr₂, if_pos hauth]
  · intro hauth
    constructor
    · intro hfresh
      have hfind : find_doc_by_id (db.courses ++ [course_doc newId c]) newId
          = some (course_doc newId c) := by
        rw [find_doc_by_id]
        refine find?_append_singleton _ db.courses (course_doc newId c) ?_
          (by rw [beq_iff_eq]; rfl)
        intro d hd
        simp only [beq_eq_false_iff_ne, ne_eq]
        exact hfresh d hd
      refine ⟨setKey (eraseKey (course_doc newId c) "_id") "id" (.vStr newId),
        rfl, ?_, rfl⟩
      unfold create_course
      rw [if_neg hc₂, if_neg (by simp [hauth])]
      dsimp only
      rw [hfind]
      rfl
    · intro hfresh
      have hfind : find_doc_by_id (db.products ++ [product_doc newId pr]) newId
          = some (product_doc newId pr) := by
        rw [find_doc_by_id]
        refine find?_append_singleton _ db.products (product_doc newId pr) ?_
          (by rw [beq_iff_eq]; rfl)
        intro d hd
        simp only [beq_eq_false_iff_ne, ne_eq]
        exact hfresh d hd
      refine ⟨setKey (eraseKey (product_doc newId pr) "_id") "id" (.vStr newId),
        rfl, ?_, rfl⟩
      unfold create_product
      rw [if_neg hpr₂, if_neg (by simp [hauth])]
      dsimp only
      rw [hfind]
      rfl

/-- C6 witness: the unauthorized half of the amended theorem at a concrete
garbage token. -/
theorem create_auth_spec_witness :
    create_course dbA1 "00000000000000000000000c" (some "garbage2") c0
      = .error .unauthorized
  ∧ create_product dbA1 "00000000000000000000000c" (some "garbage2") p0
      = .error .unauthorized :=
  (create_auth_spec dbA1 "00000000000000000000000c" (some "garbage2") c0 p0
    (by decide) (by decide)).1 (Or.inr ⟨"garbage2", rfl, by decide⟩)

/-- C10: every document returned by the list, get and create endpoints for
courses and products carries its identifier as a string under `id` and has
no `_id` key — given that every stored document carries exactly one `_id`
key, as every document this system inserts does. -/
theorem serialized_output (db : DB) (limit : Nat) (s₁ s₂ newId₁ newId₂ : String)
    (xt : Option String) (c : Course) (pr : Product)
    (hcs : ∀ d ∈ db.courses, countKey d "_id" = 1)
    (hps : ∀ d ∈ db.products, countKey d "_id" = 1) :
    (∀ o ∈ list_courses db limit, goodSerialized o)
  ∧ (∀ o ∈ list_products db limit, goodSerialized o)
  ∧ (∀ od, get_course db s₁ = .ok od → goodSerialized od)
  ∧ (∀ od, get_product db s₂ = .ok od → goodSerialized od)
  ∧ (∀ od db₂, create_course db newId₁ xt c = .ok (od, db₂) → goodSerialized od)
  ∧ (∀ od db₂, create_product db newId₂ xt pr = .ok (od, db₂) → goodSerialized od) := by
  refine ⟨?_, ?_, ?_, ?_, ?_, ?_⟩
  · intro o ho
    simp only [list_courses, get_documents] at ho
    obtain ⟨d, hd, rfl⟩ := List.mem_map.mp ho
    exact serialize_of_countKey_one d (hcs d (List.mem_of_mem_take hd))
  · intro o ho
    simp only [list_products, get_documents] at ho
    obtain ⟨d, hd, rfl⟩ := List.mem_map.mp ho
    exact serialize_of_countKey_one d (hps d (List.mem_of_mem_take hd))
  · intro od h
    unfold get_course to_object_id at h
    by_cases hv : isValidObjectId s₁
    · rw [if_pos hv] at h
      dsimp only at h
      cases hfd : find_doc_by_id db.courses (lowerHex s₁) with
      | none => simp [hfd] at h
      | some d =>
          simp only [hfd, Except.ok.injEq] at h
          have hmem : d ∈ db.courses := List.mem_of_find?_eq_some hfd
          exact h ▸ serialize_of_countKey_one d (hcs d hmem)
    · rw [if_neg hv] at h
      simp at h
  · intro od h
    unfold get_product to_object_id at h
    by_cases hv : isValidObjectId s₂
    · rw [if_pos hv] at h
      dsimp only at h
      cases hfd : find_doc_by_id db.products (lowerHex s₂) with
      | none => simp [hfd] at h
      | some d =>
          simp only [hfd, Except.ok.injEq] at h
          have hmem : d ∈ db.products := List.mem_of_find?_eq_some hfd
          exact h ▸ serialize_of_countKey_one d (hps d hmem)
    · rw [if_neg hv] at h
      simp at h
  · intro od db₂ h
    unfold create_course at h
    by_cases hp : c.price < 0
    · rw [if_pos hp] at h
      simp at h
    · rw [if_neg hp] at h
      by_cases ha : authorized db xt = false
      · rw [if_pos ha] at h
        simp at h
      · rw [if_neg ha] at h
        dsimp only at h
        cases hfd : find_doc_by_id (db.courses ++ [course_doc newId₁ c]) newId₁ with
        | none =>
            exfalso
            rw [find_doc_by_id, List.find?_eq_none] at hfd
            exact hfd (course_doc newId₁ c)
              (List.mem_append_right _ (List.mem_singleton_self _))
              (by rw [beq_iff_eq]; rfl)
        | some d =>
            simp only [hfd, Except.ok.injEq, Prod.mk.injEq] at h
            have hd : d ∈ db.courses ++ [course_doc newId₁ c] :=
              List.mem_of_find?_eq_some hfd
            have hcount : countKey d "_id" = 1 := by
              rcases List.mem_append.mp hd with h₁ | h₂
              · exact hcs d h₁
              · rw [List.mem_singleton.mp h₂]
                rfl
            exact h.1 ▸ serialize_of_countKey_one d hcount
  · intro od db₂ h
    unfold create_product at h
    by_cases hp : pr.price < 0
    · rw [if_pos hp] at h
      simp at h
    · rw [if_neg hp] at h
      by_cases ha : authorized db xt = false
      · rw [if_pos ha] at h
        simp at h
      · rw [if_neg ha] at h
        dsimp only at h
        cases hfd : find_doc_by_id (db.products ++ [product_doc newId₂ pr]) newId₂ with
        | none =>
            exfalso
            rw [find_doc_by_id, List.find?_eq_none] at hfd
            exact hfd (product_doc newId₂ pr)
              (List.mem_append_right _ (List.mem_singleton_self _))
              (by rw [beq_iff_eq]; rfl)
        | some d =>
            simp only [hfd, Except.ok.injEq, Prod.mk.injEq] at h
            have hd : d ∈ db.products ++ [product_doc newId₂ pr] :=
              List.mem_of_find?_eq_some hfd
            have hcount : countKey d "_id" = 1 := by
              rcases List.mem_append.mp hd with h₁ | h₂
              · exact hps d h₁
              · rw [List.mem_singleton.mp h₂]
                rfl
            exact h.1 ▸ serialize_of_countKey_one d hcount

/-- C10 witness: the get conjunct of the theorem at the concrete store and
its stored course. -/
theorem serialized_output_witness :
    goodSerialized (serialize (course_doc "00000000000000000000000a" c0)) :=
  (serialized_output dbC 50 "00000000000000000000000a" "x" "y" "z" none c0 p0
    (by decide) (by decide)).2.2.1
    (serialize (course_doc "00000000000000000000000a" c0)) rfl

end EduSphere
